import Mathlib

/-!
Verification development for the FMTM mapping-project backend.

The relational data model is embedded from `src/backend/app/db/db_models.py`
(tables become structures over `Nat` keys, nullable columns become `Option`,
stores become lists of rows).  The organisation routes are embedded from
`src/backend/app/organization/organization_routes.py`.  The task-status
state machine and the `organization_crud` layer are not part of the given
sources; they are modelled from the specification (each such definition is
marked in its doc comment).
-/

namespace FMTM

/-- Task statuses, per the `TaskStatus` enum referenced by `db_models.py`
(values per the specification: READY, LOCKED_FOR_MAPPING, MAPPED,
LOCKED_FOR_VALIDATION, VALIDATED, BAD, SPLIT). -/
inductive TaskStatus
  | READY
  | LOCKED_FOR_MAPPING
  | MAPPED
  | LOCKED_FOR_VALIDATION
  | VALIDATED
  | BAD
  | SPLIT
deriving DecidableEq, Repr

/-- Task actions, per the `TaskAction` enum referenced by `db_models.py`
(values per the specification's state-machine contract, including the
unlock actions appearing in the transition table). -/
inductive TaskAction
  | LOCK_FOR_MAPPING
  | MAPPED
  | LOCK_FOR_VALIDATION
  | VALIDATED
  | MARK_BAD
  | COMMENT
  | SPLIT
  | UNLOCK
deriving DecidableEq, Repr

/-- Failure taxonomy of the state machine, per the specification:
`InvalidTransition`, `LockConflict` (naming the current lock holder),
`NotFound`. -/
inductive TaskError
  | InvalidTransition
  | LockConflict (holder : Nat)
  | NotFound
deriving DecidableEq, Repr

/-- A row of the `tasks` table (`DbTask` in `db_models.py`): composite
primary key `(id, project_id)`, a status defaulting to READY, and nullable
references to the lock holder, last mapper and last validator. -/
structure DbTask where
  id : Nat
  project_id : Nat
  task_status : TaskStatus
  locked_by : Option Nat
  mapped_by : Option Nat
  validated_by : Option Nat
deriving DecidableEq, Repr

/-- A row of the `task_history` table (`DbTaskHistory` in `db_models.py`):
integer primary key, composite foreign key `(task_id, project_id)` into
`tasks`, an action, its text, its date, and the acting user. -/
structure DbTaskHistory where
  id : Nat
  project_id : Nat
  task_id : Nat
  action : TaskAction
  action_text : Option String
  action_date : Nat
  user_id : Nat
deriving DecidableEq, Repr

/-- A row of the `task_invalidation_history` table
(`DbTaskInvalidationHistory` in `db_models.py`): integer primary key,
composite foreign key `(task_id, project_id)` into `tasks`, an `is_closed`
flag, nullable mapper/invalidator/validator references with dates, and a
nullable foreign key into `task_history`. -/
structure DbTaskInvalidationHistory where
  id : Nat
  project_id : Nat
  task_id : Nat
  is_closed : Bool
  mapper_id : Option Nat
  mapped_date : Option Nat
  invalidator_id : Option Nat
  invalidated_date : Option Nat
  invalidation_history_id : Option Nat
  validator_id : Option Nat
  validated_date : Option Nat
deriving DecidableEq, Repr

/-- A row of the `task_mapping_issues` table (`DbTaskMappingIssue` in
`db_models.py`): non-null foreign key into `task_history`, an issue text,
a category reference and a count. -/
structure DbTaskMappingIssue where
  id : Nat
  task_history_id : Nat
  issue : String
  mapping_issue_category_id : Nat
  count : Nat
deriving DecidableEq, Repr

/-- A row of the `project_info` table (`DbProjectInfo` in `db_models.py`);
only the owning project reference matters for the cascade claims. -/
structure DbProjectInfo where
  project_id : Nat
  name : Option String
deriving DecidableEq, Repr

/-- A row of the `project_chat` table (`DbProjectChat` in `db_models.py`). -/
structure DbProjectChat where
  id : Nat
  project_id : Nat
  user_id : Nat
  message : String
deriving DecidableEq, Repr

/-- A row of the `projects` table (`DbProject` in `db_models.py`); the
columns not used by any claim are omitted. -/
structure DbProject where
  id : Nat
  author_id : Nat
deriving DecidableEq, Repr

/-- A row of the `features` table (`DbFeatures` in `db_models.py`): a
nullable `task_id` tied to `project_id` by a composite foreign key into
`tasks`. -/
structure DbFeatures where
  id : Nat
  project_id : Nat
  task_id : Option Nat
deriving DecidableEq, Repr

/-- A row of the `organisations` table (`DbOrganisation` in
`db_models.py`): `name` and `slug` both carry `unique=True` constraints. -/
structure DbOrganisation where
  id : Nat
  name : String
  slug : String
  description : Option String
  url : Option String
deriving DecidableEq, Repr

/-- The relational store: one list of rows per table relevant to the
claims. -/
structure Store where
  projects : List DbProject
  tasks : List DbTask
  project_info : List DbProjectInfo
  project_chat : List DbProjectChat
  task_history : List DbTaskHistory
  invalidation_history : List DbTaskInvalidationHistory
  mapping_issues : List DbTaskMappingIssue
  features : List DbFeatures
deriving DecidableEq, Repr

/-- Modelled from the spec: the transition table of the state machine
(section 4.1), which is not under the given sources.  READY allows
LOCK_FOR_MAPPING; LOCKED_FOR_MAPPING allows MAPPED, COMMENT and UNLOCK;
MAPPED allows LOCK_FOR_VALIDATION and COMMENT; LOCKED_FOR_VALIDATION
allows VALIDATED, MARK_BAD, COMMENT and UNLOCK; and VALIDATED may be
reopened by an explicit invalidate (MARK_BAD) action per the same
section. -/
def allowedAction : TaskStatus → TaskAction → Bool
  | .READY, .LOCK_FOR_MAPPING => true
  | .LOCKED_FOR_MAPPING, .MAPPED => true
  | .LOCKED_FOR_MAPPING, .COMMENT => true
  | .LOCKED_FOR_MAPPING, .UNLOCK => true
  | .MAPPED, .LOCK_FOR_VALIDATION => true
  | .MAPPED, .COMMENT => true
  | .LOCKED_FOR_VALIDATION, .VALIDATED => true
  | .LOCKED_FOR_VALIDATION, .MARK_BAD => true
  | .LOCKED_FOR_VALIDATION, .COMMENT => true
  | .LOCKED_FOR_VALIDATION, .UNLOCK => true
  | .VALIDATED, .MARK_BAD => true
  | _, _ => false

/-- Modelled from the spec: the status an allowed action leads to
(section 4.1).  COMMENT is a no-op on status; UNLOCK reverts
LOCKED_FOR_MAPPING to READY and LOCKED_FOR_VALIDATION to MAPPED;
MARK_BAD from LOCKED_FOR_VALIDATION marks the task BAD; the reopening
invalidate from VALIDATED reverts the status to MAPPED (the spec leaves
the choice between MAPPED and LOCKED_FOR_VALIDATION to policy). -/
def nextStatus : TaskStatus → TaskAction → TaskStatus
  | .READY, .LOCK_FOR_MAPPING => .LOCKED_FOR_MAPPING
  | .LOCKED_FOR_MAPPING, .MAPPED => .MAPPED
  | .LOCKED_FOR_MAPPING, .UNLOCK => .READY
  | .MAPPED, .LOCK_FOR_VALIDATION => .LOCKED_FOR_VALIDATION
  | .LOCKED_FOR_VALIDATION, .VALIDATED => .VALIDATED
  | .LOCKED_FOR_VALIDATION, .MARK_BAD => .BAD
  | .LOCKED_FOR_VALIDATION, .UNLOCK => .MAPPED
  | .VALIDATED, .MARK_BAD => .MAPPED
  | s, _ => s

/-- The transition table exactly as the claim words it, for comparison
with the modelled `allowedAction`: READY allows LOCK_FOR_MAPPING;
LOCKED_FOR_MAPPING allows MAPPED, COMMENT and unlock; MAPPED allows
LOCK_FOR_VALIDATION and COMMENT; LOCKED_FOR_VALIDATION allows VALIDATED,
MARK_BAD, COMMENT and unlock; nothing else. -/
def claimTransitionTable : TaskStatus → TaskAction → Bool
  | .READY, .LOCK_FOR_MAPPING => true
  | .LOCKED_FOR_MAPPING, .MAPPED => true
  | .LOCKED_FOR_MAPPING, .COMMENT => true
  | .LOCKED_FOR_MAPPING, .UNLOCK => true
  | .MAPPED, .LOCK_FOR_VALIDATION => true
  | .MAPPED, .COMMENT => true
  | .LOCKED_FOR_VALIDATION, .VALIDATED => true
  | .LOCKED_FOR_VALIDATION, .MARK_BAD => true
  | .LOCKED_FOR_VALIDATION, .COMMENT => true
  | .LOCKED_FOR_VALIDATION, .UNLOCK => true
  | _, _ => false

/-- An action that acquires the edit lock. -/
def isLockAction : TaskAction → Bool
  | .LOCK_FOR_MAPPING => true
  | .LOCK_FOR_VALIDATION => true
  | _ => false

/-- Modelled from the spec: the actor-field updates an allowed action
performs (section 4.1): lock actions set `locked_by`; MAPPED sets
`mapped_by` and releases the lock; VALIDATED sets `validated_by` and
releases the lock; UNLOCK releases the lock; COMMENT changes nothing. -/
def updateActorFields (t : DbTask) (a : TaskAction) (actor : Nat) : DbTask :=
  match a with
  | .LOCK_FOR_MAPPING => { t with locked_by := some actor }
  | .LOCK_FOR_VALIDATION => { t with locked_by := some actor }
  | .MAPPED => { t with mapped_by := some actor, locked_by := none }
  | .VALIDATED => { t with validated_by := some actor, locked_by := none }
  | .MARK_BAD => { t with locked_by := none }
  | .UNLOCK => { t with locked_by := none }
  | _ => t

/-- Modelled from the spec: `apply_action` of section 4.1, which is not
under the given sources.  Locking is exclusive, so a lock attempt on a
task whose `locked_by` is already set fails with `LockConflict` naming
the current holder; an action not allowed from the current status fails
with `InvalidTransition`; an allowed action updates the status and the
actor fields and returns the new `task_history` row recording it. -/
def apply_action (t : DbTask) (a : TaskAction) (actor now hid : Nat) :
    Except TaskError (DbTask × DbTaskHistory) :=
  match a, t.locked_by with
  | .LOCK_FOR_MAPPING, some holder => .error (.LockConflict holder)
  | .LOCK_FOR_VALIDATION, some holder => .error (.LockConflict holder)
  | _, _ =>
    if allowedAction t.task_status a then
      .ok ({ updateActorFields t a actor with
               task_status := nextStatus t.task_status a },
           { id := hid, project_id := t.project_id, task_id := t.id,
             action := a, action_text := none, action_date := now,
             user_id := actor })
    else
      .error .InvalidTransition

/-- Finds the task with composite key `(tid, pid)` in the store. -/
def findTask (s : Store) (pid tid : Nat) : Option DbTask :=
  s.tasks.find? (fun t => t.id = tid && t.project_id = pid)

/-- Modelled from the spec: running `apply_action` against the store.  On
failure the store is returned unchanged together with the error; on
success the task row is replaced and the new history row is appended in
the same logical operation (section 4.1). -/
def storeApplyAction (s : Store) (pid tid : Nat) (a : TaskAction)
    (actor now hid : Nat) : Store × Option TaskError :=
  match findTask s pid tid with
  | none => (s, some .NotFound)
  | some t =>
    match apply_action t a actor now hid with
    | .error e => (s, some e)
    | .ok (t', h) =>
      ({ s with
           tasks := s.tasks.map
             (fun u => if u.id = tid && u.project_id = pid then t' else u),
           task_history := h :: s.task_history }, none)

/-- From `DbProject.tasks_mapped` in `db_models.py`: query the tasks,
filter on `task_status == TaskStatus.MAPPED`, restrict to the children of
this project (`with_parent`), and count.  The count is recomputed from the
store on every call; nothing is cached. -/
def DbProject.tasks_mapped (s : Store) (p : DbProject) : Nat :=
  ((s.tasks.filter (fun t => t.task_status = TaskStatus.MAPPED)).filter
    (fun t => t.project_id = p.id)).length

/-- From `DbProject.tasks_validated` in `db_models.py`: same query with
`task_status == TaskStatus.VALIDATED`. -/
def DbProject.tasks_validated (s : Store) (p : DbProject) : Nat :=
  ((s.tasks.filter (fun t => t.task_status = TaskStatus.VALIDATED)).filter
    (fun t => t.project_id = p.id)).length

/-- From `DbProject.tasks_bad` in `db_models.py`: same query with
`task_status == TaskStatus.BAD`. -/
def DbProject.tasks_bad (s : Store) (p : DbProject) : Nat :=
  ((s.tasks.filter (fun t => t.task_status = TaskStatus.BAD)).filter
    (fun t => t.project_id = p.id)).length

/-- The tasks belonging to a project (the `DbProject.tasks`
relationship). -/
def projectTasks (s : Store) (pid : Nat) : List DbTask :=
  s.tasks.filter (fun t => t.project_id = pid)

/-- Moves every MAPPED task of the given project to VALIDATED (the bulk
status change of the specification's counting scenario). -/
def validateAllMapped (s : Store) (pid : Nat) : Store :=
  { s with
      tasks := s.tasks.map (fun t =>
        if t.project_id = pid && t.task_status = TaskStatus.MAPPED then
          { t with task_status := TaskStatus.VALIDATED }
        else t) }

/-- A history row is owned by the task with composite key
`(h.task_id, h.project_id)`: the `fk_tasks` composite foreign key of
`task_history` in `db_models.py`. -/
def historyOfTask (t : DbTask) (h : DbTaskHistory) : Bool :=
  h.task_id = t.id && h.project_id = t.project_id

/-- From `DbTask.task_history` in `db_models.py` (`cascade="all"`) and
`DbTaskHistory.invalidation_history` and
`DbTaskHistory.task_mapping_issues` (both `cascade="all"`): deleting a
task deletes its history rows, and deleting a history row deletes the
invalidation rows referencing it through `invalidation_history_id` and
the issue rows referencing it through `task_history_id`. -/
def delete_task (s : Store) (pid tid : Nat) : Store :=
  let dead := ((s.task_history.filter
    (fun h => h.task_id = tid && h.project_id = pid)).map (fun h => h.id))
  { s with
      tasks := s.tasks.filter (fun t => !(t.id = tid && t.project_id = pid)),
      task_history := s.task_history.filter
        (fun h => !(h.task_id = tid && h.project_id = pid)),
      invalidation_history := s.invalidation_history.filter (fun r =>
        match r.invalidation_history_id with
        | some hid => !(dead.any (fun x => x = hid))
        | none => true),
      mapping_issues := s.mapping_issues.filter
        (fun m => !(dead.any (fun x => x = m.task_history_id))) }

/-- From `DbProject` in `db_models.py`: the `tasks` relationship carries
`cascade="all, delete, delete-orphan"`, `project_info` carries
`cascade="all, delete, delete-orphan"` and `project_chat` carries
`cascade="all"`, so deleting a project deletes its tasks (and through
`DbTask.task_history` each task's history rows, and through the history
relationships the invalidation and issue rows hanging off them), its
project-info rows and its chat rows. -/
def delete_project (s : Store) (pid : Nat) : Store :=
  let deadTasks := s.tasks.filter (fun t => t.project_id = pid)
  let deadHist := s.task_history.filter
    (fun h => deadTasks.any (fun t => historyOfTask t h))
  let dead := deadHist.map (fun h => h.id)
  { s with
      projects := s.projects.filter (fun p => !(p.id = pid)),
      tasks := s.tasks.filter (fun t => !(t.project_id = pid)),
      project_info := s.project_info.filter (fun i => !(i.project_id = pid)),
      project_chat := s.project_chat.filter (fun c => !(c.project_id = pid)),
      task_history := s.task_history.filter
        (fun h => !(deadTasks.any (fun t => historyOfTask t h))),
      invalidation_history := s.invalidation_history.filter (fun r =>
        match r.invalidation_history_id with
        | some hid => !(dead.any (fun x => x = hid))
        | none => true),
      mapping_issues := s.mapping_issues.filter
        (fun m => !(dead.any (fun x => x = m.task_history_id))) }

/-- Number of open (`is_closed = false`) invalidation records for the
task with composite key `(tid, pid)`. -/
def openCount (rows : List DbTaskInvalidationHistory) (pid tid : Nat) : Nat :=
  rows.countP (fun r => r.project_id = pid && r.task_id = tid && !r.is_closed)

/-- The single-open-record invariant: at most one invalidation record per
task is open. -/
def openInvariant (rows : List DbTaskInvalidationHistory) : Prop :=
  ∀ pid tid, openCount rows pid tid ≤ 1

/-- Modelled from the spec: the operations of the invalidation-history
lifecycle (sections 3 and 4.1), which are not under the given sources.
`invalidate` starts a new invalidation cycle for a task; `revalidate`
resolves the task's current cycle. -/
inductive InvOp
  | invalidate (pid tid actor now rid hid : Nat)
  | revalidate (pid tid actor now : Nat)
deriving DecidableEq, Repr

/-- Closes every open invalidation record of the given task, marking the
closer. -/
def closeOpen (rows : List DbTaskInvalidationHistory) (pid tid actor now : Nat) :
    List DbTaskInvalidationHistory :=
  rows.map (fun r =>
    if r.project_id = pid && r.task_id = tid && !r.is_closed then
      { r with is_closed := true, validator_id := some actor,
               validated_date := some now }
    else r)

/-- Modelled from the spec: applying one invalidation-history operation.
Invalidation closes the current open record of the task, if any, and
creates a new open cycle record carrying the invalidator and its
timestamp, linked to the invalidating history row; re-validation updates
the task's open record in place with the validator and its timestamp and
sets `is_closed`, rather than creating a new record. -/
def applyInvOp (rows : List DbTaskInvalidationHistory) :
    InvOp → List DbTaskInvalidationHistory
  | .invalidate pid tid actor now rid hid =>
    { id := rid, project_id := pid, task_id := tid, is_closed := false,
      mapper_id := none, mapped_date := none,
      invalidator_id := some actor, invalidated_date := some now,
      invalidation_history_id := some hid,
      validator_id := none, validated_date := none } ::
      closeOpen rows pid tid actor now
  | .revalidate pid tid actor now => closeOpen rows pid tid actor now

/-- Runs a sequence of invalidation-history operations. -/
def runInvOps (rows : List DbTaskInvalidationHistory) :
    List InvOp → List DbTaskInvalidationHistory
  | [] => rows
  | op :: rest => runInvOps (applyInvOp rows op) rest

/-- Database-level failure taxonomy (the `IntegrityViolation` class of
the specification). -/
inductive DbError
  | IntegrityViolation
deriving DecidableEq, Repr

/-- Whether a task with composite key `(tid, pid)` exists: the target of
the `fk_tasks` composite foreign keys in `db_models.py`. -/
def taskExists (s : Store) (tid pid : Nat) : Bool :=
  s.tasks.any (fun t => t.id = tid && t.project_id = pid)

/-- Inserting a `tasks` row: the composite primary key on
`(id, project_id)` declared in `DbTask` admits duplicate ids across
projects but rejects a duplicate `(id, project_id)` pair. -/
def insertTask (s : Store) (t : DbTask) : Except DbError Store :=
  if taskExists s t.id t.project_id then .error .IntegrityViolation
  else .ok { s with tasks := t :: s.tasks }

/-- Inserting a `task_history` row: the `fk_tasks` composite foreign-key
constraint of `DbTaskHistory` requires the `(task_id, project_id)` pair
to exist in `tasks`, so the insert of a row whose pair has no matching
task fails with an integrity violation.  On failure the store is
unchanged. -/
def insertTaskHistory (s : Store) (h : DbTaskHistory) :
    Except DbError Store :=
  if taskExists s h.task_id h.project_id then
    .ok { s with task_history := h :: s.task_history }
  else .error .IntegrityViolation

/-- Inserting a `task_invalidation_history` row: the `fk_tasks` composite
foreign-key constraint of `DbTaskInvalidationHistory` requires the
`(task_id, project_id)` pair to exist in `tasks`. -/
def insertInvalidationHistory (s : Store) (r : DbTaskInvalidationHistory) :
    Except DbError Store :=
  if taskExists s r.task_id r.project_id then
    .ok { s with invalidation_history := r :: s.invalidation_history }
  else .error .IntegrityViolation

/-- Inserting a `features` row: the `fk_tasks` composite foreign-key
constraint of `DbFeatures` requires the `(task_id, project_id)` pair to
exist in `tasks` whenever `task_id` is non-null. -/
def insertFeature (s : Store) (f : DbFeatures) : Except DbError Store :=
  match f.task_id with
  | none => .ok { s with features := f :: s.features }
  | some tid =>
    if taskExists s tid f.project_id then
      .ok { s with features := f :: s.features }
    else .error .IntegrityViolation

/-- Every child row referencing a task references an existing
`(task_id, project_id)` pair: the conjunction of the three `fk_tasks`
composite foreign-key constraints of `db_models.py`. -/
def childFKInvariant (s : Store) : Prop :=
  (∀ h ∈ s.task_history, taskExists s h.task_id h.project_id = true) ∧
  (∀ r ∈ s.invalidation_history, taskExists s r.task_id r.project_id = true) ∧
  (∀ f ∈ s.features, ∀ tid, f.task_id = some tid →
    taskExists s tid f.project_id = true)

/-- An HTTP error response (`HTTPException` of the routes). -/
structure HTTPError where
  status : Nat
  detail : String
deriving DecidableEq, Repr

/-- Modelled from the spec: `organization_crud.get_organisation_by_id` is
not under the given sources; it looks an organisation up by primary
key. -/
def organization_crud.get_organisation_by_id
    (orgs : List DbOrganisation) (oid : Nat) : Option DbOrganisation :=
  orgs.find? (fun o => o.id = oid)

/-- Modelled from the spec: `organization_crud.get_organisation_by_name`
is not under the given sources; it looks an organisation up by its
(unique) name. -/
def organization_crud.get_organisation_by_name
    (orgs : List DbOrganisation) (name : String) : Option DbOrganisation :=
  orgs.find? (fun o => o.name = name)

/-- Inserting an `organisations` row: `name` and `slug` both carry
`unique=True` in `db_models.py`, so the insert of a row duplicating an
existing name or slug fails with an integrity violation. -/
def db_insert_organisation (orgs : List DbOrganisation)
    (o : DbOrganisation) : Except DbError (List DbOrganisation) :=
  if orgs.any (fun x => x.name = o.name) || orgs.any (fun x => x.slug = o.slug)
  then .error .IntegrityViolation
  else .ok (o :: orgs)

/-- Modelled from the spec: `organization_crud.create_organization` is
not under the given sources; it inserts a new organisations row whose
slug is derived one-to-one from the name (the derivation is modelled as
the identity), subject to the table's unique constraints. -/
def organization_crud.create_organization (orgs : List DbOrganisation)
    (oid : Nat) (name : String) (descr url : Option String) :
    Except DbError (List DbOrganisation) :=
  db_insert_organisation orgs
    { id := oid, name := name, slug := name, description := descr, url := url }

/-- From `get_organization_detail` in `organization_routes.py`: look the
organisation up by id; when none exists raise `HTTPException` 404
"Organization not found", otherwise return the organisation. -/
def get_organization_detail (orgs : List DbOrganisation) (oid : Nat) :
    Except HTTPError DbOrganisation :=
  match organization_crud.get_organisation_by_id orgs oid with
  | none => .error { status := 404, detail := "Organization not found" }
  | some o => .ok o

/-- From `create_organization` in `organization_routes.py`: when an
organisation with the same name already exists raise `HTTPException` 400;
otherwise create it through the crud layer and return the success
message (a crud-level failure would propagate out of the handler and is
modelled as a 500). -/
def create_organization (orgs : List DbOrganisation) (oid : Nat)
    (name : String) (descr url : Option String) :
    Except HTTPError (String × List DbOrganisation) :=
  match organization_crud.get_organisation_by_name orgs name with
  | some _ =>
    .error { status := 400,
             detail := "Organization already exists with the name " ++ name }
  | none =>
    match organization_crud.create_organization orgs oid name descr url with
    | .ok orgs' => .ok ("Organization Created Successfully.", orgs')
    | .error _ => .error { status := 500, detail := "Internal Server Error" }

/-- Modelled from the spec: `organization_crud.update_organization_info`
is not under the given sources; it looks the organisation up by id,
raising (modelled as `Except.error` carrying the exception message) when
none exists, and otherwise applies the given field updates. -/
def organization_crud.update_organization_info (orgs : List DbOrganisation)
    (oid : Nat) (name descr url : Option String) :
    Except String DbOrganisation :=
  match orgs.find? (fun o => o.id = oid) with
  | none => .error "Organization not found"
  | some o =>
    .ok { o with
            name := name.getD o.name,
            description := match descr with | some d => some d | none => o.description,
            url := match url with | some u => some u | none => o.url }

/-- From `update_organization` in `organization_routes.py`: the whole
crud call sits in a try/except that converts any exception `e` into
`HTTPException` 400 with detail "Error updating organization: e".  The
crud outcome is passed in explicitly, standing for whatever the call
raised or returned. -/
def update_organization (crudResult : Except String DbOrganisation) :
    Except HTTPError DbOrganisation :=
  match crudResult with
  | .ok o => .ok o
  | .error e =>
    .error { status := 400, detail := "Error updating organization: " ++ e }

/-- From `delete_organisations` in `organization_routes.py`: look the
organisation up by id; when none exists raise `HTTPException` 404 before
touching the store, otherwise delete the found row and commit.  The
returned list is the state of the `organisations` table afterwards. -/
def delete_organisations (orgs : List DbOrganisation) (oid : Nat) :
    List DbOrganisation × Except HTTPError String :=
  match organization_crud.get_organisation_by_id orgs oid with
  | none => (orgs, .error { status := 404, detail := "Organization not found" })
  | some o => (orgs.erase o, .ok "Organization Deleted Successfully.")

/-- Descending insertion by `action_date`. -/
def insertDesc (h : DbTaskHistory) : List DbTaskHistory → List DbTaskHistory
  | [] => [h]
  | h2 :: rest =>
    if h2.action_date ≤ h.action_date then h :: h2 :: rest
    else h2 :: insertDesc h rest

/-- Sorts history rows by `action_date`, most recent first: the
`order_by=desc(DbTaskHistory.action_date)` clause of the `task_history`
relationship in `db_models.py`. -/
def orderByDescActionDate : List DbTaskHistory → List DbTaskHistory
  | [] => []
  | h :: rest => insertDesc h (orderByDescActionDate rest)

/-- From `DbTask.task_history` in `db_models.py`: reading the
relationship yields the rows owned by the task's composite key, ordered
by action date descending. -/
def DbTask.task_history (s : Store) (t : DbTask) : List DbTaskHistory :=
  orderByDescActionDate (s.task_history.filter (fun h => historyOfTask t h))

theorem insertDesc_perm (h : DbTaskHistory) (l : List DbTaskHistory) :
    (insertDesc h l).Perm (h :: l) := by
  induction l with
  | nil => simp [insertDesc]
  | cons h2 rest ih =>
    simp only [insertDesc]
    split
    · exact List.Perm.refl _
    · exact (ih.cons h2).trans (List.Perm.swap h h2 rest)

theorem insertDesc_pairwise (h : DbTaskHistory) (l : List DbTaskHistory)
    (hl : l.Pairwise (fun a b => b.action_date ≤ a.action_date)) :
    (insertDesc h l).Pairwise (fun a b => b.action_date ≤ a.action_date) := by
  induction l with
  | nil => simp [insertDesc]
  | cons h2 rest ih =>
    rcases List.pairwise_cons.mp hl with ⟨h2le, hrest⟩
    simp only [insertDesc]
    split
    · rename_i hle
      refine List.pairwise_cons.mpr ⟨?_, hl⟩
      intro b hb
      rcases List.mem_cons.mp hb with rfl | hb
      · exact hle
      · exact le_trans (h2le b hb) hle
    · rename_i hgt
      refine List.pairwise_cons.mpr ⟨?_, ih hrest⟩
      intro b hb
      rcases List.mem_cons.mp ((insertDesc_perm h rest).mem_iff.mp hb) with
        rfl | hb
      · exact Nat.le_of_lt (Nat.lt_of_not_le hgt)
      · exact h2le b hb

theorem orderByDescActionDate_pairwise (l : List DbTaskHistory) :
    (orderByDescActionDate l).Pairwise
      (fun a b => b.action_date ≤ a.action_date) := by
  induction l with
  | nil => simp [orderByDescActionDate]
  | cons h rest ih => exact insertDesc_pairwise h _ ih

theorem orderByDescActionDate_perm (l : List DbTaskHistory) :
    (orderByDescActionDate l).Perm l := by
  induction l with
  | nil => simp [orderByDescActionDate]
  | cons h rest ih =>
    exact (insertDesc_perm h (orderByDescActionDate rest)).trans (ih.cons h)

/-- C8: reading a task's `task_history` relationship yields exactly the
history rows owned by the task's composite key, ordered by action date in
descending order (most recent action first). -/
theorem task_history_read_sorted_desc (s : Store) (t : DbTask) :
    (DbTask.task_history s t).Pairwise
      (fun a b => b.action_date ≤ a.action_date) ∧
    (DbTask.task_history s t).Perm
      (s.task_history.filter (fun h => historyOfTask t h)) ∧
    ∀ h ∈ DbTask.task_history s t,
      h.task_id = t.id ∧ h.project_id = t.project_id := by
  refine ⟨orderByDescActionDate_pairwise _, orderByDescActionDate_perm _, ?_⟩
  intro h hmem
  have hf := (orderByDescActionDate_perm _).mem_iff.mp hmem
  have := List.mem_filter.mp hf
  simpa [historyOfTask] using this.2

/-- C9: fetching the organisation detail or deleting the organisation for
an id that matches no stored organisation fails with HTTP 404
"Organization not found", and the delete leaves the stored organisations
unchanged. -/
theorem organisation_not_found_404 (orgs : List DbOrganisation) (oid : Nat)
    (h : organization_crud.get_organisation_by_id orgs oid = none) :
    get_organization_detail orgs oid =
      .error { status := 404, detail := "Organization not found" } ∧
    delete_organisations orgs oid =
      (orgs, .error { status := 404, detail := "Organization not found" }) := by
  constructor
  · simp [get_organization_detail, h]
  · simp [delete_organisations, h]

/-- Witness for C9 at the empty store and id 1. -/
theorem organisation_not_found_404_w :
    get_organization_detail ([] : List DbOrganisation) 1 =
      .error { status := 404, detail := "Organization not found" } ∧
    delete_organisations ([] : List DbOrganisation) 1 =
      ([], .error { status := 404, detail := "Organization not found" }) :=
  organisation_not_found_404 [] 1 (by rfl)

/-- C10: the organisation update endpoint converts every exception raised
by the crud layer — including the missing-organisation case — into an
HTTP 400 error carrying the exception's message, and never returns a 404
for a missing organisation. -/
theorem update_organization_wraps_errors_as_400
    (orgs : List DbOrganisation) (oid : Nat) (name descr url : Option String)
    (e : String) (hmissing : orgs.find? (fun o => o.id = oid) = none) :
    update_organization (.error e) =
      .error { status := 400, detail := "Error updating organization: " ++ e } ∧
    (∀ r he, update_organization r = .error he → he.status = 400) ∧
    update_organization
        (organization_crud.update_organization_info orgs oid name descr url) =
      .error { status := 400,
               detail := "Error updating organization: Organization not found" } := by
  refine ⟨rfl, ?_, ?_⟩
  · intro r he hr
    cases r with
    | ok o => simp [update_organization] at hr
    | error e2 =>
      simp [update_organization] at hr
      rw [← hr]
  · simp [organization_crud.update_organization_info, hmissing,
      update_organization]

/-- Witness for C10 at the empty store and id 1. -/
theorem update_organization_wraps_errors_as_400_w :
    update_organization (.error "boom") =
      .error { status := 400, detail := "Error updating organization: boom" } ∧
    (∀ r he, update_organization r = .error he → he.status = 400) ∧
    update_organization
        (organization_crud.update_organization_info [] 1 none none none) =
      .error { status := 400,
               detail := "Error updating organization: Organization not found" } :=
  update_organization_wraps_errors_as_400 [] 1 none none none "boom" (by rfl)

theorem length_filter_filter_comm (p q : DbTask → Bool) (l : List DbTask) :
    ((l.filter p).filter q).length = ((l.filter q).filter p).length := by
  rw [List.filter_filter, List.filter_filter]
  exact congrArg List.length
    (List.filter_congr (fun a _ => Bool.and_comm (q a) (p a)))

theorem count_mapped_after_validateAllMapped (pid : Nat) (l : List DbTask) :
    ((((l.map (fun t =>
        if t.project_id = pid && t.task_status = TaskStatus.MAPPED then
          { t with task_status := TaskStatus.VALIDATED }
        else t)).filter (fun t => t.task_status = TaskStatus.MAPPED)).filter
      (fun t => t.project_id = pid))).length = 0 := by
  rw [List.filter_filter, ← List.countP_eq_length_filter, List.countP_map]
  refine List.countP_eq_zero.mpr ?_
  intro a _
  by_cases h1 : a.project_id = pid <;>
    by_cases h2 : a.task_status = TaskStatus.MAPPED <;>
    simp [Function.comp, h1, h2]

theorem count_validated_after_validateAllMapped (pid : Nat) (l : List DbTask) :
    ((((l.map (fun t =>
        if t.project_id = pid && t.task_status = TaskStatus.MAPPED then
          { t with task_status := TaskStatus.VALIDATED }
        else t)).filter (fun t => t.task_status = TaskStatus.VALIDATED)).filter
      (fun t => t.project_id = pid))).length =
    ((l.filter (fun t => t.task_status = TaskStatus.VALIDATED)).filter
      (fun t => t.project_id = pid)).length +
    ((l.filter (fun t => t.task_status = TaskStatus.MAPPED)).filter
      (fun t => t.project_id = pid)).length := by
  rw [List.filter_filter, ← List.countP_eq_length_filter, List.countP_map,
    List.filter_filter, ← List.countP_eq_length_filter,
    List.filter_filter, ← List.countP_eq_length_filter]
  induction l with
  | nil => rfl
  | cons a l ih =>
    simp only [List.countP_cons, Function.comp]
    by_cases h1 : a.project_id = pid <;>
      by_cases h2 : a.task_status = TaskStatus.MAPPED <;>
      by_cases h3 : a.task_status = TaskStatus.VALIDATED <;>
      simp only [h1, h2, h3, ih] <;> simp [h1, h2, h3] <;> omega

theorem count_bad_after_validateAllMapped (pid : Nat) (l : List DbTask) :
    ((((l.map (fun t =>
        if t.project_id = pid && t.task_status = TaskStatus.MAPPED then
          { t with task_status := TaskStatus.VALIDATED }
        else t)).filter (fun t => t.task_status = TaskStatus.BAD)).filter
      (fun t => t.project_id = pid))).length =
    ((l.filter (fun t => t.task_status = TaskStatus.BAD)).filter
      (fun t => t.project_id = pid)).length := by
  rw [List.filter_filter, ← List.countP_eq_length_filter, List.countP_map,
    List.filter_filter, ← List.countP_eq_length_filter]
  induction l with
  | nil => rfl
  | cons a l ih =>
    simp only [List.countP_cons, Function.comp]
    by_cases h1 : a.project_id = pid <;>
      by_cases h2 : a.task_status = TaskStatus.MAPPED <;>
      by_cases h3 : a.task_status = TaskStatus.BAD <;>
      simp only [h1, h2, h3, ih] <;> simp [h1, h2, h3]

/-- C2: the derived counts `tasks_mapped`, `tasks_validated` and
`tasks_bad` each equal exactly the number of the project's own tasks
currently in status MAPPED, VALIDATED and BAD; they are recomputed from
the current task state on every read, so after the project's MAPPED
tasks move to VALIDATED the mapped count is 0 and the validated count
has grown by exactly the old mapped count — in particular, with 5 tasks
of which exactly 3 are MAPPED, the mapped count reads 3 before the move
and 0 immediately after. -/
theorem project_counts_recomputed_from_task_state (s : Store)
    (p : DbProject) :
    (DbProject.tasks_mapped s p =
       ((projectTasks s p.id).filter
         (fun t => t.task_status = TaskStatus.MAPPED)).length ∧
     DbProject.tasks_validated s p =
       ((projectTasks s p.id).filter
         (fun t => t.task_status = TaskStatus.VALIDATED)).length ∧
     DbProject.tasks_bad s p =
       ((projectTasks s p.id).filter
         (fun t => t.task_status = TaskStatus.BAD)).length) ∧
    (DbProject.tasks_mapped (validateAllMapped s p.id) p = 0 ∧
     DbProject.tasks_validated (validateAllMapped s p.id) p =
       DbProject.tasks_validated s p + DbProject.tasks_mapped s p ∧
     DbProject.tasks_bad (validateAllMapped s p.id) p =
       DbProject.tasks_bad s p) ∧
    ((projectTasks s p.id).length = 5 →
     ((projectTasks s p.id).filter
       (fun t => t.task_status = TaskStatus.MAPPED)).length = 3 →
     DbProject.tasks_mapped s p = 3 ∧
     DbProject.tasks_mapped (validateAllMapped s p.id) p = 0) := by
  have hm : DbProject.tasks_mapped s p =
      ((projectTasks s p.id).filter
        (fun t => t.task_status = TaskStatus.MAPPED)).length :=
    length_filter_filter_comm _ _ _
  have hv : DbProject.tasks_validated s p =
      ((projectTasks s p.id).filter
        (fun t => t.task_status = TaskStatus.VALIDATED)).length :=
    length_filter_filter_comm _ _ _
  have hb : DbProject.tasks_bad s p =
      ((projectTasks s p.id).filter
        (fun t => t.task_status = TaskStatus.BAD)).length :=
    length_filter_filter_comm _ _ _
  have hm0 : DbProject.tasks_mapped (validateAllMapped s p.id) p = 0 :=
    count_mapped_after_validateAllMapped p.id s.tasks
  refine ⟨⟨hm, hv, hb⟩, ⟨hm0, ?_, ?_⟩, ?_⟩
  · exact count_validated_after_validateAllMapped p.id s.tasks
  · exact count_bad_after_validateAllMapped p.id s.tasks
  · intro _ h3
    exact ⟨hm.trans h3, hm0⟩

/-- Witness for C2 at a concrete project with 5 tasks, exactly 3 of them
MAPPED. -/
theorem project_counts_recomputed_from_task_state_w :
    DbProject.tasks_mapped
        { projects := [⟨1, 1⟩],
          tasks := [⟨1, 1, .MAPPED, none, none, none⟩,
                    ⟨2, 1, .MAPPED, none, none, none⟩,
                    ⟨3, 1, .MAPPED, none, none, none⟩,
                    ⟨4, 1, .READY, none, none, none⟩,
                    ⟨5, 1, .VALIDATED, none, none, none⟩],
          project_info := [], project_chat := [], task_history := [],
          invalidation_history := [], mapping_issues := [], features := [] }
        ⟨1, 1⟩ = 3 ∧
    DbProject.tasks_mapped
        (validateAllMapped
          { projects := [⟨1, 1⟩],
            tasks := [⟨1, 1, .MAPPED, none, none, none⟩,
                      ⟨2, 1, .MAPPED, none, none, none⟩,
                      ⟨3, 1, .MAPPED, none, none, none⟩,
                      ⟨4, 1, .READY, none, none, none⟩,
                      ⟨5, 1, .VALIDATED, none, none, none⟩],
            project_info := [], project_chat := [], task_history := [],
            invalidation_history := [], mapping_issues := [], features := [] }
          1)
        ⟨1, 1⟩ = 0 :=
  (project_counts_recomputed_from_task_state _ _).2.2 (by decide) (by decide)

theorem taskExists_iff (s : Store) (tid pid : Nat) :
    taskExists s tid pid = true ↔
      ∃ t ∈ s.tasks, t.id = tid ∧ t.project_id = pid := by
  simp [taskExists, List.any_eq_true]

/-- C5: tasks are identified by the composite key `(id, project_id)` —
inserting a task whose pair is fresh succeeds even when the id alone is
taken by another project, while a taken pair is rejected — and every
child row referencing a task does so through the `(task_id, project_id)`
composite foreign key, so under the foreign-key invariant every child row
points at a task of its own project, inserting a child row whose pair has
no matching task fails, and successful child inserts preserve the
invariant. -/
theorem composite_keys_tie_children_to_tasks (s : Store)
    (hfk : childFKInvariant s) (t : DbTask) (h : DbTaskHistory)
    (r : DbTaskInvalidationHistory) :
    (taskExists s t.id t.project_id = false →
       insertTask s t = .ok { s with tasks := t :: s.tasks }) ∧
    (taskExists s t.id t.project_id = true →
       insertTask s t = .error .IntegrityViolation) ∧
    (∀ h2 ∈ s.task_history, ∃ t2 ∈ s.tasks,
       t2.id = h2.task_id ∧ t2.project_id = h2.project_id) ∧
    (∀ r2 ∈ s.invalidation_history, ∃ t2 ∈ s.tasks,
       t2.id = r2.task_id ∧ t2.project_id = r2.project_id) ∧
    (∀ f ∈ s.features, ∀ tid, f.task_id = some tid → ∃ t2 ∈ s.tasks,
       t2.id = tid ∧ t2.project_id = f.project_id) ∧
    (taskExists s h.task_id h.project_id = false →
       insertTaskHistory s h = .error .IntegrityViolation) ∧
    (taskExists s r.task_id r.project_id = false →
       insertInvalidationHistory s r = .error .IntegrityViolation) ∧
    (∀ s2, insertTaskHistory s h = .ok s2 → childFKInvariant s2) ∧
    (∀ s2, insertInvalidationHistory s r = .ok s2 → childFKInvariant s2) := by
  obtain ⟨hfk1, hfk2, hfk3⟩ := hfk
  refine ⟨?_, ?_, ?_, ?_, ?_, ?_, ?_, ?_, ?_⟩
  · intro hfresh; simp [insertTask, hfresh]
  · intro htaken; simp [insertTask, htaken]
  · intro h2 hm; exact (taskExists_iff s h2.task_id h2.project_id).mp (hfk1 h2 hm)
  · intro r2 hm; exact (taskExists_iff s r2.task_id r2.project_id).mp (hfk2 r2 hm)
  · intro f hm tid htid
    exact (taskExists_iff s tid f.project_id).mp (hfk3 f hm tid htid)
  · intro hfresh; simp [insertTaskHistory, hfresh]
  · intro hfresh; simp [insertInvalidationHistory, hfresh]
  · intro s2 hs2
    by_cases hc : taskExists s h.task_id h.project_id
    · simp [insertTaskHistory, hc] at hs2
      subst hs2
      refine ⟨?_, ?_, ?_⟩
      · intro h2 hm
        rcases List.mem_cons.mp hm with rfl | hm2
        · exact hc
        · exact hfk1 h2 hm2
      · intro r2 hm; exact hfk2 r2 hm
      · intro f hm tid htid; exact hfk3 f hm tid htid
    · simp [insertTaskHistory, hc] at hs2
  · intro s2 hs2
    by_cases hc : taskExists s r.task_id r.project_id
    · simp [insertInvalidationHistory, hc] at hs2
      subst hs2
      refine ⟨?_, ?_, ?_⟩
      · intro h2 hm; exact hfk1 h2 hm
      · intro r2 hm
        rcases List.mem_cons.mp hm with rfl | hm2
        · exact hc
        · exact hfk2 r2 hm2
      · intro f hm tid htid; exact hfk3 f hm tid htid
    · simp [insertInvalidationHistory, hc] at hs2

/-- Witness for C5: in a store whose only task is `(id 2, project 9)`,
inserting a task `(id 2, project 1)` succeeds (ids are only unique within
a project) while inserting a history row referencing `(task 2, project 1)`
— a task id that exists only under a different project — fails. -/
theorem composite_keys_tie_children_to_tasks_w :
    insertTask ⟨[], [⟨2, 9, .READY, none, none, none⟩], [], [], [], [], [], []⟩
        ⟨2, 1, .READY, none, none, none⟩ =
      .ok ⟨[], [⟨2, 1, .READY, none, none, none⟩,
                ⟨2, 9, .READY, none, none, none⟩], [], [], [], [], [], []⟩ ∧
    insertTaskHistory
        ⟨[], [⟨2, 9, .READY, none, none, none⟩], [], [], [], [], [], []⟩
        ⟨1, 1, 2, .COMMENT, none, 0, 1⟩ =
      .error .IntegrityViolation :=
  ⟨(composite_keys_tie_children_to_tasks
      ⟨[], [⟨2, 9, .READY, none, none, none⟩], [], [], [], [], [], []⟩
      (by simp [childFKInvariant]) ⟨2, 1, .READY, none, none, none⟩
      ⟨1, 1, 2, .COMMENT, none, 0, 1⟩
      ⟨1, 1, 2, false, none, none, none, none, none, none, none⟩).1 (by rfl),
   (composite_keys_tie_children_to_tasks
      ⟨[], [⟨2, 9, .READY, none, none, none⟩], [], [], [], [], [], []⟩
      (by simp [childFKInvariant]) ⟨2, 1, .READY, none, none, none⟩
      ⟨1, 1, 2, .COMMENT, none, 0, 1⟩
      ⟨1, 1, 2, false, none, none, none, none, none, none, none⟩).2.2.2.2.2.1
     (by rfl)⟩

theorem countP_congr_of_mem {α : Type} (l : List α) (p q : α → Bool)
    (h : ∀ a ∈ l, p a = q a) : l.countP p = l.countP q := by
  rw [List.countP_eq_length_filter, List.countP_eq_length_filter,
    List.filter_congr h]

theorem openCount_closeOpen_self (rows : List DbTaskInvalidationHistory)
    (pid tid a n : Nat) :
    openCount (closeOpen rows pid tid a n) pid tid = 0 := by
  rw [openCount, closeOpen, List.countP_map]
  refine List.countP_eq_zero.mpr ?_
  intro r _
  by_cases h1 : r.project_id = pid <;> by_cases h2 : r.task_id = tid <;>
    by_cases h3 : r.is_closed <;> simp [Function.comp, h1, h2, h3]

theorem openCount_closeOpen_other (rows : List DbTaskInvalidationHistory)
    (pid tid a n pid' tid' : Nat) (h : pid' ≠ pid ∨ tid' ≠ tid) :
    openCount (closeOpen rows pid tid a n) pid' tid' =
      openCount rows pid' tid' := by
  rw [openCount, closeOpen, List.countP_map, openCount]
  refine countP_congr_of_mem _ _ _ ?_
  intro r _
  by_cases h3 : r.is_closed
  · simp [Function.comp, h3]
  · by_cases h1 : r.project_id = pid <;> by_cases h2 : r.task_id = tid
    · rcases h with hne | hne
      · simp [Function.comp, h1, h2, h3, Ne.symm hne]
      · simp [Function.comp, h1, h2, h3, Ne.symm hne]
    · simp [Function.comp, h1, h2, h3]
    · simp [Function.comp, h1, h2, h3]
    · simp [Function.comp, h1, h2, h3]

theorem applyInvOp_preserves_openInvariant
    (rows : List DbTaskInvalidationHistory) (op : InvOp)
    (h : openInvariant rows) : openInvariant (applyInvOp rows op) := by
  cases op with
  | invalidate pid tid actor now rid hid =>
    intro pid' tid'
    by_cases hk : pid' = pid ∧ tid' = tid
    · obtain ⟨rfl, rfl⟩ := hk
      simp only [applyInvOp, openCount, List.countP_cons]
      have h0 : openCount (closeOpen rows pid' tid' actor now) pid' tid' = 0 :=
        openCount_closeOpen_self rows pid' tid' actor now
      rw [openCount] at h0
      simp [h0]
    · have hk' : pid' ≠ pid ∨ tid' ≠ tid := by
        by_cases e1 : pid' = pid
        · exact Or.inr (fun e2 => hk ⟨e1, e2⟩)
        · exact Or.inl e1
      simp only [applyInvOp, openCount, List.countP_cons]
      have hother := openCount_closeOpen_other rows pid tid actor now pid' tid' hk'
      rw [openCount] at hother
      have hnew :
          (decide (pid = pid') && decide (tid = tid') && !false) = false := by
        rcases hk' with hne | hne
        · simp [Ne.symm hne]
        · simp [Ne.symm hne]
      simp only [hother]
      rcases hk' with hne | hne <;> simp [Ne.symm hne] <;> exact h pid' tid'
  | revalidate pid tid actor now =>
    intro pid' tid'
    by_cases hk : pid' = pid ∧ tid' = tid
    · obtain ⟨rfl, rfl⟩ := hk
      simp only [applyInvOp]
      rw [openCount_closeOpen_self]
      exact Nat.zero_le 1
    · have hk' : pid' ≠ pid ∨ tid' ≠ tid := by
        by_cases e1 : pid' = pid
        · exact Or.inr (fun e2 => hk ⟨e1, e2⟩)
        · exact Or.inl e1
      simp only [applyInvOp]
      rw [openCount_closeOpen_other rows pid tid actor now pid' tid' hk']
      exact h pid' tid'

theorem runInvOps_preserves_openInvariant
    (ops : List InvOp) (rows : List DbTaskInvalidationHistory)
    (h : openInvariant rows) : openInvariant (runInvOps rows ops) := by
  induction ops generalizing rows with
  | nil => exact h
  | cons op rest ih =>
    exact ih (applyInvOp rows op) (applyInvOp_preserves_openInvariant rows op h)

/-- C4: in every reachable state at most one invalidation-history record
per task is open (`is_closed = false`): each lifecycle operation
preserves the single-open-record invariant, any sequence of operations
preserves it, and every state reached from the empty table satisfies
it. -/
theorem invalidation_single_open_record
    (rows : List DbTaskInvalidationHistory) (op : InvOp) (ops : List InvOp)
    (h : openInvariant rows) :
    openInvariant (applyInvOp rows op) ∧
    openInvariant (runInvOps rows ops) ∧
    openInvariant (runInvOps [] ops) :=
  ⟨applyInvOp_preserves_openInvariant rows op h,
   runInvOps_preserves_openInvariant ops rows h,
   runInvOps_preserves_openInvariant ops []
     (fun pid tid => by simp [openCount])⟩

/-- Witness for C4 on a concrete run: invalidate task (1,1) twice and
re-validate it once, starting from the empty table. -/
theorem invalidation_single_open_record_w :
    openInvariant
      (runInvOps []
        [.invalidate 1 1 2 10 100 7, .revalidate 1 1 3 11,
         .invalidate 1 1 4 12 101 8]) :=
  (invalidation_single_open_record [] (.invalidate 1 1 2 10 100 7)
      [.invalidate 1 1 2 10 100 7, .revalidate 1 1 3 11,
       .invalidate 1 1 4 12 101 8]
      (fun pid tid => by simp [openCount])).2.2

/-- C3: cascade deletion leaves no orphans.  Under the composite
foreign-key integrity of `task_history` and the linkage of each of the
project's invalidation rows to one of the project's history rows,
deleting a project removes the project row, all of its tasks, all of its
project-info and chat rows, all of its history rows, and every
invalidation and issue row hanging off that history; and deleting a task
removes all of the task's history rows. -/
theorem delete_cascades_no_orphans (s : Store) (pid tid : Nat)
    (hfk : ∀ h ∈ s.task_history, ∃ t ∈ s.tasks,
      t.id = h.task_id ∧ t.project_id = h.project_id)
    (hlink : ∀ r ∈ s.invalidation_history, r.project_id = pid →
      ∃ hid, r.invalidation_history_id = some hid ∧
        ∃ h ∈ s.task_history, h.id = hid ∧ h.project_id = pid) :
    (∀ p ∈ (delete_project s pid).projects, p.id ≠ pid) ∧
    (∀ t ∈ (delete_project s pid).tasks, t.project_id ≠ pid) ∧
    (∀ i ∈ (delete_project s pid).project_info, i.project_id ≠ pid) ∧
    (∀ c ∈ (delete_project s pid).project_chat, c.project_id ≠ pid) ∧
    (∀ h ∈ (delete_project s pid).task_history, h.project_id ≠ pid) ∧
    (∀ r ∈ (delete_project s pid).invalidation_history,
      r.project_id ≠ pid) ∧
    (∀ m ∈ (delete_project s pid).mapping_issues,
      ∀ h ∈ s.task_history, h.id = m.task_history_id →
        h.project_id ≠ pid) ∧
    (∀ h ∈ (delete_task s pid tid).task_history,
      ¬(h.task_id = tid ∧ h.project_id = pid)) := by
  have hdead : ∀ h ∈ s.task_history, h.project_id = pid →
      (s.tasks.filter (fun t => t.project_id = pid)).any
        (fun t => historyOfTask t h) = true := by
    intro h hm hp
    rcases hfk h hm with ⟨t, htm, hid, hpid⟩
    refine List.any_eq_true.mpr
      ⟨t, List.mem_filter.mpr ⟨htm, by simp [hpid, hp]⟩, ?_⟩
    simp [historyOfTask, hid.symm, hpid.symm]
  refine ⟨?_, ?_, ?_, ?_, ?_, ?_, ?_, ?_⟩
  · intro p hp
    simp only [delete_project] at hp
    simpa using (List.mem_filter.mp hp).2
  · intro t ht
    simp only [delete_project] at ht
    simpa using (List.mem_filter.mp ht).2
  · intro i hi
    simp only [delete_project] at hi
    simpa using (List.mem_filter.mp hi).2
  · intro c hc
    simp only [delete_project] at hc
    simpa using (List.mem_filter.mp hc).2
  · intro h hm hp
    simp only [delete_project] at hm
    have h2 := List.mem_filter.mp hm
    have h3 := hdead h h2.1 hp
    rw [h3] at h2
    simp at h2
  · intro r hm hp
    simp only [delete_project] at hm
    have h2 := List.mem_filter.mp hm
    rcases hlink r h2.1 hp with ⟨hid, hlinkid, hrow, hrm, hrid, hrpid⟩
    have hcond := h2.2
    rw [hlinkid] at hcond
    simp at hcond
    rcases hfk hrow hrm with ⟨t, htm, hid2, hpid2⟩
    exact hcond hid hrow hrm t htm (hpid2.trans hrpid)
      (by simp [historyOfTask, ← hid2, ← hpid2]) hrid rfl
  · intro m hm h hhm heq hp
    simp only [delete_project] at hm
    have h2 := List.mem_filter.mp hm
    have hrowdead : h ∈ s.task_history.filter
        (fun h2 => (s.tasks.filter (fun t => t.project_id = pid)).any
          (fun t => historyOfTask t h2)) :=
      List.mem_filter.mpr ⟨hhm, hdead h hhm hp⟩
    have hany : ((s.task_history.filter
        (fun h2 => (s.tasks.filter (fun t => t.project_id = pid)).any
          (fun t => historyOfTask t h2))).map (fun h2 => h2.id)).any
        (fun x => x = m.task_history_id) = true :=
      List.any_eq_true.mpr ⟨h.id, List.mem_map_of_mem _ hrowdead, by simp [heq]⟩
    have hcond := h2.2
    rw [hany] at hcond
    simp at hcond
  · intro h hm hcontra
    simp only [delete_task] at hm
    have h2 := List.mem_filter.mp hm
    have := h2.2
    simp [hcontra.1, hcontra.2] at this

/-- Witness for C3 on a concrete store: project 1 owns task (1,1) with a
history row, an invalidation row linked to it and an issue row attached
to it, next to an unrelated project 2 owning task (1,2); after deleting
project 1 no surviving task or invalidation row belongs to it. -/
theorem delete_cascades_no_orphans_w :
    ((delete_project
      ⟨[⟨1, 1⟩, ⟨2, 1⟩],
       [⟨1, 1, .READY, none, none, none⟩, ⟨1, 2, .READY, none, none, none⟩],
       [⟨1, none⟩], [⟨1, 1, 1, "hello"⟩],
       [⟨10, 1, 1, .COMMENT, none, 0, 1⟩, ⟨11, 2, 1, .COMMENT, none, 0, 1⟩],
       [⟨20, 1, 1, false, none, none, none, none, some 10, none, none⟩],
       [⟨30, 10, "misaligned", 1, 1⟩], []⟩ 1).tasks.all
        (fun t => t.project_id != 1)) = true ∧
    ((delete_project
      ⟨[⟨1, 1⟩, ⟨2, 1⟩],
       [⟨1, 1, .READY, none, none, none⟩, ⟨1, 2, .READY, none, none, none⟩],
       [⟨1, none⟩], [⟨1, 1, 1, "hello"⟩],
       [⟨10, 1, 1, .COMMENT, none, 0, 1⟩, ⟨11, 2, 1, .COMMENT, none, 0, 1⟩],
       [⟨20, 1, 1, false, none, none, none, none, some 10, none, none⟩],
       [⟨30, 10, "misaligned", 1, 1⟩], []⟩ 1).invalidation_history.all
        (fun r => r.project_id != 1)) = true := by
  constructor
  · rw [List.all_eq_true]
    intro t ht
    have h := (delete_cascades_no_orphans
      ⟨[⟨1, 1⟩, ⟨2, 1⟩],
       [⟨1, 1, .READY, none, none, none⟩, ⟨1, 2, .READY, none, none, none⟩],
       [⟨1, none⟩], [⟨1, 1, 1, "hello"⟩],
       [⟨10, 1, 1, .COMMENT, none, 0, 1⟩, ⟨11, 2, 1, .COMMENT, none, 0, 1⟩],
       [⟨20, 1, 1, false, none, none, none, none, some 10, none, none⟩],
       [⟨30, 10, "misaligned", 1, 1⟩], []⟩ 1 1
      (by decide) (by decide)).2.1 t ht
    simpa using h
  · rw [List.all_eq_true]
    intro r hr
    have h := (delete_cascades_no_orphans
      ⟨[⟨1, 1⟩, ⟨2, 1⟩],
       [⟨1, 1, .READY, none, none, none⟩, ⟨1, 2, .READY, none, none, none⟩],
       [⟨1, none⟩], [⟨1, 1, 1, "hello"⟩],
       [⟨10, 1, 1, .COMMENT, none, 0, 1⟩, ⟨11, 2, 1, .COMMENT, none, 0, 1⟩],
       [⟨20, 1, 1, false, none, none, none, none, some 10, none, none⟩],
       [⟨30, 10, "misaligned", 1, 1⟩], []⟩ 1 1
      (by decide) (by decide)).2.2.2.2.2.1 r hr
    simpa using h

/-- C6: when an organisation with the requested name already exists,
creation fails with HTTP 400 naming the duplicate; when none exists,
creation succeeds with the success message, and the unique constraints
keep both the organisation names and the slugs duplicate-free. -/
theorem create_organization_unique_names_and_slugs
    (orgs : List DbOrganisation) (oid : Nat) (name : String)
    (descr url : Option String)
    (hslug : ∀ o ∈ orgs, o.slug = o.name)
    (hnames : (orgs.map DbOrganisation.name).Nodup) :
    ((∃ o ∈ orgs, o.name = name) →
       create_organization orgs oid name descr url =
         .error { status := 400,
                  detail := "Organization already exists with the name "
                    ++ name }) ∧
    ((∀ o ∈ orgs, o.name ≠ name) →
       create_organization orgs oid name descr url =
         .ok ("Organization Created Successfully.",
              ⟨oid, name, name, descr, url⟩ :: orgs) ∧
       ((⟨oid, name, name, descr, url⟩ :: orgs).map
         DbOrganisation.name).Nodup ∧
       ((⟨oid, name, name, descr, url⟩ :: orgs).map
         DbOrganisation.slug).Nodup) := by
  constructor
  · rintro ⟨o, hm, ho⟩
    have hsome : (orgs.find? (fun o => o.name = name)).isSome :=
      List.find?_isSome.mpr ⟨o, hm, by simp [ho]⟩
    rcases Option.isSome_iff_exists.mp hsome with ⟨o2, ho2⟩
    simp [create_organization, organization_crud.get_organisation_by_name, ho2]
  · intro hfresh
    have hfind : orgs.find? (fun o => o.name = name) = none :=
      List.find?_eq_none.mpr (fun o hm => by simp [hfresh o hm])
    have hanyname : orgs.any (fun x => x.name = name) = false := by
      rw [List.any_eq_false]
      intro x hx
      simp [hfresh x hx]
    have hanyslug : orgs.any (fun x => x.slug = name) = false := by
      rw [List.any_eq_false]
      intro x hx
      simp [hslug x hx, hfresh x hx]
    have hnotmem : name ∉ orgs.map DbOrganisation.name := by
      intro hmem
      rcases List.mem_map.mp hmem with ⟨o, hm, ho⟩
      exact hfresh o hm ho
    have hmapeq : orgs.map DbOrganisation.slug = orgs.map DbOrganisation.name :=
      List.map_congr_left hslug
    refine ⟨?_, ?_, ?_⟩
    · simp [create_organization, organization_crud.get_organisation_by_name,
        hfind, organization_crud.create_organization, db_insert_organisation,
        hanyname, hanyslug]
    · exact List.nodup_cons.mpr ⟨hnotmem, hnames⟩
    · simp only [List.map_cons, hmapeq]
      exact List.nodup_cons.mpr ⟨hnotmem, hnames⟩

/-- Witness for C6 on a store holding one organisation named HOT:
creating HOT again fails with 400, creating OSM succeeds. -/
theorem create_organization_unique_names_and_slugs_w :
    create_organization [⟨1, "HOT", "HOT", none, none⟩] 2 "HOT" none none =
      .error { status := 400,
               detail := "Organization already exists with the name "
                 ++ "HOT" } ∧
    create_organization [⟨1, "HOT", "HOT", none, none⟩] 2 "OSM" none none =
      .ok ("Organization Created Successfully.",
           [⟨2, "OSM", "OSM", none, none⟩, ⟨1, "HOT", "HOT", none, none⟩]) :=
  ⟨(create_organization_unique_names_and_slugs
      [⟨1, "HOT", "HOT", none, none⟩] 2 "HOT" none none
      (by simp) (by simp)).1
     ⟨⟨1, "HOT", "HOT", none, none⟩, by simp, rfl⟩,
   ((create_organization_unique_names_and_slugs
      [⟨1, "HOT", "HOT", none, none⟩] 2 "OSM" none none
      (by simp) (by simp)).2 (by simp)).1⟩

/-- Counterexample for C1 as stated: MARK_BAD from VALIDATED is not in
the claim's transition table, yet the modelled `apply_action` accepts it
(the specification's explicit reopening invalidate); and a lock attempt
on an already-locked task — also not in the table — fails with
LockConflict naming the holder, not with InvalidTransition. -/
theorem transition_table_counterexample :
    claimTransitionTable TaskStatus.VALIDATED TaskAction.MARK_BAD = false ∧
    apply_action ⟨1, 1, .VALIDATED, none, none, none⟩ .MARK_BAD 7 5 9 =
      .ok (⟨1, 1, .MAPPED, none, none, none⟩, ⟨9, 1, 1, .MARK_BAD, none, 5, 7⟩) ∧
    claimTransitionTable TaskStatus.LOCKED_FOR_MAPPING
      TaskAction.LOCK_FOR_MAPPING = false ∧
    apply_action ⟨1, 1, .LOCKED_FOR_MAPPING, some 7, none, none⟩
      .LOCK_FOR_MAPPING 8 5 9 = .error (.LockConflict 7) ∧
    Except.error (TaskError.LockConflict 7) ≠
      (Except.error TaskError.InvalidTransition :
        Except TaskError (DbTask × DbTaskHistory)) := by
  refine ⟨rfl, rfl, rfl, rfl, ?_⟩
  intro h
  simp at h

/-- C1 as amended: the modelled transition relation is the claim's table
plus the reopening invalidate (MARK_BAD from VALIDATED); `apply_action`
succeeds exactly on an allowed action whose lock precondition holds,
fails with LockConflict naming the holder on any lock attempt against a
held lock, fails with InvalidTransition on every other disallowed
action, and on any failure leaves the store — hence the task's status —
unchanged. -/
theorem apply_action_unlocked (t : DbTask) (a : TaskAction)
    (actor now hid : Nat)
    (h : isLockAction a = false ∨ t.locked_by = none) :
    apply_action t a actor now hid =
      if allowedAction t.task_status a then
        .ok ({ updateActorFields t a actor with
                 task_status := nextStatus t.task_status a },
             { id := hid, project_id := t.project_id, task_id := t.id,
               action := a, action_text := none, action_date := now,
               user_id := actor })
      else .error .InvalidTransition := by
  rcases h with h | h
  · cases a <;> (try simp [isLockAction] at h) <;>
      cases hl : t.locked_by <;> simp [apply_action, hl]
  · cases a <;> simp [apply_action, h]

theorem apply_action_lock_held (t : DbTask) (a : TaskAction)
    (actor now hid holder : Nat) (hlock : isLockAction a = true)
    (hl : t.locked_by = some holder) :
    apply_action t a actor now hid = .error (.LockConflict holder) := by
  cases a <;> (try simp [isLockAction] at hlock) <;> simp [apply_action, hl]

theorem transition_table_amended (t : DbTask) (a : TaskAction)
    (actor now hid : Nat) (s : Store) (pid tid : Nat) :
    (∀ st a2, allowedAction st a2 =
       (claimTransitionTable st a2 ||
        (st = TaskStatus.VALIDATED && a2 = TaskAction.MARK_BAD))) ∧
    ((∃ t' h, apply_action t a actor now hid = .ok (t', h)) ↔
       (allowedAction t.task_status a = true ∧
        (isLockAction a = true → t.locked_by = none))) ∧
    (∀ holder, isLockAction a = true → t.locked_by = some holder →
       apply_action t a actor now hid = .error (.LockConflict holder)) ∧
    ((allowedAction t.task_status a = false ∧
      (isLockAction a = true → t.locked_by = none)) →
       apply_action t a actor now hid = .error .InvalidTransition) ∧
    (∀ e, (storeApplyAction s pid tid a actor now hid).2 = some e →
       (storeApplyAction s pid tid a actor now hid).1 = s) := by
  refine ⟨?_, ?_, ?_, ?_, ?_⟩
  · intro st a2
    cases st <;> cases a2 <;> rfl
  · constructor
    · rintro ⟨t', hh, heq⟩
      by_cases hlock : isLockAction a = true
      · rcases hl : t.locked_by with _ | holder
        · rw [apply_action_unlocked t a actor now hid (Or.inr hl)] at heq
          by_cases hall : allowedAction t.task_status a = true
          · exact ⟨hall, fun _ => rfl⟩
          · rw [if_neg hall] at heq
            simp at heq
        · rw [apply_action_lock_held t a actor now hid holder hlock hl] at heq
          simp at heq
      · have hlock' : isLockAction a = false := by simpa using hlock
        rw [apply_action_unlocked t a actor now hid (Or.inl hlock')] at heq
        by_cases hall : allowedAction t.task_status a = true
        · exact ⟨hall, fun hlk => absurd hlk hlock⟩
        · rw [if_neg hall] at heq
          simp at heq
    · rintro ⟨hall, himp⟩
      by_cases hlock : isLockAction a = true
      · rw [apply_action_unlocked t a actor now hid (Or.inr (himp hlock)),
          if_pos hall]
        exact ⟨_, _, rfl⟩
      · rw [apply_action_unlocked t a actor now hid
          (Or.inl (by simpa using hlock)), if_pos hall]
        exact ⟨_, _, rfl⟩
  · intro holder hlock hsome
    exact apply_action_lock_held t a actor now hid holder hlock hsome
  · rintro ⟨hnot, himp⟩
    by_cases hlock : isLockAction a = true
    · rw [apply_action_unlocked t a actor now hid (Or.inr (himp hlock)),
        if_neg (by simp [hnot])]
    · rw [apply_action_unlocked t a actor now hid
        (Or.inl (by simpa using hlock)), if_neg (by simp [hnot])]
  · intro e he
    cases hf : findTask s pid tid with
    | none => simp [storeApplyAction, hf]
    | some t2 =>
      cases happ : apply_action t2 a actor now hid with
      | error e2 => simp [storeApplyAction, hf, happ]
      | ok pr => simp [storeApplyAction, hf, happ] at he

/-- Witness for the amended C1: SPLIT from READY is disallowed and fails
with InvalidTransition. -/
theorem transition_table_amended_w :
    apply_action ⟨1, 1, .READY, none, none, none⟩ .SPLIT 1 2 3 =
      .error .InvalidTransition :=
  (transition_table_amended ⟨1, 1, .READY, none, none, none⟩ .SPLIT 1 2 3
    ⟨[], [], [], [], [], [], [], []⟩ 0 0).2.2.2.1 ⟨rfl, fun _ => rfl⟩

/-- Counterexample for C7 as stated: in the race to close validation on
the same task, the winner's VALIDATED succeeds, but the loser's attempt
then fails with InvalidTransition — not with a LockConflict naming the
current holder as the claim asserts. -/
theorem lock_conflict_counterexample :
    apply_action ⟨1, 1, .LOCKED_FOR_VALIDATION, some 7, none, none⟩
      .VALIDATED 7 1 2 =
      .ok (⟨1, 1, .VALIDATED, none, none, some 7⟩, ⟨2, 1, 1, .VALIDATED, none, 1, 7⟩) ∧
    apply_action ⟨1, 1, .VALIDATED, none, none, some 7⟩ .VALIDATED 8 3 4 =
      .error .InvalidTransition ∧
    ∀ holder, apply_action ⟨1, 1, .VALIDATED, none, none, some 7⟩
      .VALIDATED 8 3 4 ≠ .error (.LockConflict holder) := by
  refine ⟨rfl, rfl, ?_⟩
  intro holder h
  simp [apply_action, allowedAction] at h

/-- C7 as amended: locking is mutually exclusive — whichever of two
actors locks a READY unlocked task first succeeds, acquiring the lock,
and the other's attempt fails with LockConflict naming the holder; in a
race to close validation, whichever attempt runs first succeeds and the
loser fails with InvalidTransition (never with LockConflict, and never
silently overwriting the winner's state). -/
theorem lock_mutual_exclusion_amended (t tv : DbTask)
    (u1 u2 n1 n2 i1 i2 : Nat) :
    (t.task_status = .READY → t.locked_by = none →
       ∃ t', (∃ h, apply_action t .LOCK_FOR_MAPPING u1 n1 i1 = .ok (t', h)) ∧
         t'.locked_by = some u1 ∧ t'.task_status = .LOCKED_FOR_MAPPING ∧
         apply_action t' .LOCK_FOR_MAPPING u2 n2 i2 =
           .error (.LockConflict u1)) ∧
    (tv.task_status = .LOCKED_FOR_VALIDATION → tv.locked_by = some u1 →
       ∃ tv', (∃ h, apply_action tv .VALIDATED u1 n1 i1 = .ok (tv', h)) ∧
         apply_action tv' .VALIDATED u2 n2 i2 = .error .InvalidTransition ∧
         ∀ holder, apply_action tv' .VALIDATED u2 n2 i2 ≠
           .error (.LockConflict holder)) := by
  constructor
  · intro h1 h2
    refine ⟨{ t with locked_by := some u1,
                     task_status := .LOCKED_FOR_MAPPING },
      ⟨⟨i1, t.project_id, t.id, .LOCK_FOR_MAPPING, none, n1, u1⟩, ?_⟩,
      rfl, rfl, ?_⟩
    · simp [apply_action, h2, h1, allowedAction, updateActorFields, nextStatus]
    · simp [apply_action]
  · intro h1 h2
    refine ⟨{ tv with locked_by := none, validated_by := some u1,
                      task_status := .VALIDATED },
      ⟨⟨i1, tv.project_id, tv.id, .VALIDATED, none, n1, u1⟩, ?_⟩, ?_, ?_⟩
    · simp [apply_action, h2, h1, allowedAction, updateActorFields, nextStatus]
    · simp [apply_action, allowedAction]
    · intro holder
      simp [apply_action, allowedAction]

/-- Witness for the amended C7: user 5 locks the READY task (1,1), then
user 6's lock attempt fails with LockConflict naming user 5. -/
theorem lock_mutual_exclusion_amended_w :
    ∃ t', (∃ h, apply_action ⟨1, 1, .READY, none, none, none⟩
        .LOCK_FOR_MAPPING 5 1 1 = .ok (t', h)) ∧
      t'.locked_by = some 5 ∧ t'.task_status = .LOCKED_FOR_MAPPING ∧
      apply_action t' .LOCK_FOR_MAPPING 6 2 2 = .error (.LockConflict 5) :=
  (lock_mutual_exclusion_amended ⟨1, 1, .READY, none, none, none⟩
    ⟨2, 1, .LOCKED_FOR_VALIDATION, some 5, none, none⟩ 5 6 1 2 1 2).1 rfl rfl

end FMTM
